import Mathlib

/-!
Shallow embedding of the transaction-processing pipeline of the
Top-coin/Sui-architecture repository: object model (`src/crates/core`),
pre-check pipeline (`src/crates/precheck`), lock manager
(`src/crates/locking`), execution engine (`src/crates/vm`), effects builder
(`src/crates/effects`), checkpoint aggregator (`src/crates/checkpoint`),
in-memory stores (`src/crates/storage`) and the validator orchestrator
(`src/crates/validator`).  Rust `HashMap`s are embedded as association
lists, `u64`/`usize` as `Nat`, fallible store calls as `Except String`,
and the asynchronous orchestration as explicit state passing.
-/

namespace SuiArch

/-- External `serde_json::Value` (crate `serde_json`), treated as an opaque
text blob per the storage contract; `rendered` stands for its Debug
rendering used only inside log strings. -/
structure JsonValue where
  rendered : String
deriving DecidableEq

/-- `ObjectID(pub String)` from `src/crates/core/src/object.rs`. -/
structure ObjectID where
  val : String
deriving DecidableEq

/-- `Owner` from `src/crates/core/src/object.rs`. -/
inductive Owner where
  | Address (addr : String)
  | Shared
  | Immutable
deriving DecidableEq

/-- `ObjectData` from `src/crates/core/src/object.rs`. -/
inductive ObjectData where
  | Coin (balance : Nat)
  | Package (modules : List String)
  | MoveStruct (type_name : String) (fields : JsonValue)
deriving DecidableEq

/-- `SuiObject` from `src/crates/core/src/object.rs`. -/
structure SuiObject where
  id : ObjectID
  version : Nat
  owner : Owner
  data : ObjectData
deriving DecidableEq

/-- `SuiObject::new`: fresh objects start at version 1. -/
def SuiObject.new (id : ObjectID) (owner : Owner) (data : ObjectData) : SuiObject :=
  { id := id, version := 1, owner := owner, data := data }

/-- `SuiObject::lock_key`: `format!("{}::v{}", self.id.0, self.version)`. -/
def SuiObject.lock_key (o : SuiObject) : String :=
  o.id.val ++ "::v" ++ toString o.version

/-- `TransactionKind` from `src/crates/core/src/transaction.rs`. -/
inductive TransactionKind where
  | Transfer (object : ObjectID) (recipient : String)
  | Call (package : ObjectID) (module : String) (function : String)
      (arguments : List JsonValue)
deriving DecidableEq

/-- `TransactionPayload` from `src/crates/core/src/transaction.rs`. -/
structure TransactionPayload where
  kind : TransactionKind
  gas_budget : Nat
deriving DecidableEq

/-- `SignedTransaction` from `src/crates/core/src/transaction.rs`
(signature is opaque and unverified). -/
structure SignedTransaction where
  signer : String
  payload : TransactionPayload
  signature : String
deriving DecidableEq

/-- `TransactionDigest(pub String)` from `src/crates/core/src/transaction.rs`. -/
structure TransactionDigest where
  val : String
deriving DecidableEq

/-- `ExecutionRequest` from `src/crates/core/src/messages.rs`. -/
structure ExecutionRequest where
  tx : SignedTransaction
  digest : TransactionDigest
deriving DecidableEq

/-- `CheckpointSummary` from `src/crates/core/src/messages.rs`. -/
structure CheckpointSummary where
  sequence_number : Nat
  transaction_count : Nat
  root_digest : String
deriving DecidableEq

/-! ## Pre-check pipeline (`src/crates/precheck/src/lib.rs`) -/

/-- `PreCheckError` from `src/crates/precheck/src/lib.rs`. -/
inductive PreCheckError where
  | InvalidGasBudget
  | MissingRecipient
  | InvalidCall
deriving DecidableEq

/-- The `thiserror` display strings of `PreCheckError`. -/
def PreCheckError.message : PreCheckError → String
  | .InvalidGasBudget => "gas budget must be positive"
  | .MissingRecipient => "transfer recipient missing"
  | .InvalidCall => "move call is missing target module or function"

/-- `PreCheckReport` from `src/crates/precheck/src/lib.rs`. -/
structure PreCheckReport where
  is_move_call : Bool
  requires_shared_lock : Bool
deriving DecidableEq

/-- `PreCheckPipeline::run` from `src/crates/precheck/src/lib.rs`. -/
def PreCheckPipeline.run (request : ExecutionRequest) :
    Except PreCheckError PreCheckReport :=
  let payload := request.tx.payload
  if payload.gas_budget = 0 then
    .error .InvalidGasBudget
  else
    match payload.kind with
    | .Transfer _ recipient =>
        if recipient.trim.isEmpty then .error .MissingRecipient
        else .ok { is_move_call := false, requires_shared_lock := false }
    | .Call _ module function _ =>
        if module.isEmpty || function.isEmpty then .error .InvalidCall
        else .ok { is_move_call := true, requires_shared_lock := true }

/-! ## Lock manager (`src/crates/locking/src/lib.rs`)

The Rust `HashMap<String, LockState>` behind the mutex is embedded as an
association list with unique keys reachable from the empty table; `entry().or_default()`
is the lookup-with-default below, writing the (possibly unchanged) state back. -/

/-- `LockMode` from `src/crates/locking/src/lib.rs`. -/
inductive LockMode where
  | Shared
  | Exclusive
deriving DecidableEq

/-- `LockState` from `src/crates/locking/src/lib.rs`. -/
structure LockState where
  shared_count : Nat
  exclusive : Bool
deriving DecidableEq

/-- The lock table: the `HashMap<String, LockState>` inside `LockManager`. -/
abbrev LockTable := List (String × LockState)

/-- `HashMap::get` on the lock table. -/
def lookupKey : LockTable → String → Option LockState
  | [], _ => none
  | (k', v') :: rest, k => if k' = k then some v' else lookupKey rest k

/-- `HashMap::insert` on the lock table: replace the binding of `k`,
or append one. -/
def insertEntry : LockTable → String → LockState → LockTable
  | [], k, v => [(k, v)]
  | (k', v') :: rest, k, v =>
      if k' = k then (k, v) :: rest else (k', v') :: insertEntry rest k v

/-- `HashMap::remove` on the lock table. -/
def eraseKey : LockTable → String → LockTable
  | [], _ => []
  | (k', v') :: rest, k => if k' = k then rest else (k', v') :: eraseKey rest k

/-- The state the lock table associates with a key, absent keys reading as
the `Default` state: this is what `entry(key).or_default()` dereferences to. -/
def stateOf (t : LockTable) (k : String) : LockState :=
  (lookupKey t k).getD { shared_count := 0, exclusive := false }

/-- Core of `LockManager::acquire`, keyed by the lock key: reads the entry
(`entry().or_default()`), decides per mode, and writes the resulting state
back.  Returns the Rust boolean and the table after the call. -/
def acquireKey (t : LockTable) (k : String) (mode : LockMode) :
    Bool × LockTable :=
  let state := stateOf t k
  match mode with
  | .Shared =>
      if state.exclusive then
        (false, insertEntry t k state)
      else
        (true, insertEntry t k { state with shared_count := state.shared_count + 1 })
  | .Exclusive =>
      if state.exclusive || state.shared_count > 0 then
        (false, insertEntry t k state)
      else
        (true, insertEntry t k { state with exclusive := true })

/-- Core of `LockManager::release`, keyed by the lock key: updates the
entry if present and removes it when it ends with no holders. -/
def releaseKey (t : LockTable) (k : String) (mode : LockMode) : LockTable :=
  match lookupKey t k with
  | none => t
  | some state =>
      let state' :=
        match mode with
        | .Shared => { state with shared_count := state.shared_count - 1 }
        | .Exclusive => { state with exclusive := false }
      if state'.shared_count = 0 && state'.exclusive = false then
        eraseKey t k
      else
        insertEntry t k state'

/-- `LockManager::acquire` from `src/crates/locking/src/lib.rs`. -/
def LockManager.acquire (t : LockTable) (object : SuiObject) (mode : LockMode) :
    Bool × LockTable :=
  acquireKey t object.lock_key mode

/-- `LockManager::release` from `src/crates/locking/src/lib.rs`. -/
def LockManager.release (t : LockTable) (object : SuiObject) (mode : LockMode) :
    LockTable :=
  releaseKey t object.lock_key mode

/-! ## Execution engine (`src/crates/vm/src/lib.rs`)

The engine is embedded with the trait-object stores passed explicitly: a
`StoreOps` record of pure state transformers over an abstract store state
`σ`, an `anyhow::Result` becoming `Except String`.  A failing store call
is modelled as leaving the abstract store state unchanged.  `ObjectID::random()`
is modelled by an explicit fresh-id oracle argument. -/

/-- The `sui_storage` store traits (`ObjectStore`, `EffectsStore`,
`CheckpointStore`) as pure state transformers over an abstract backend
state `σ`. -/
structure StoreOps (σ : Type) where
  getObject : String → σ → Except String (Option SuiObject)
  putObject : SuiObject → σ → Except String σ
  saveEffects : String → String → σ → Except String σ
  saveCheckpoint : Nat → String → σ → Except String σ

/-- `ExecutionResult` from `src/crates/vm/src/lib.rs`. -/
structure ExecutionResult where
  gas_used : Nat
  touched_objects : List SuiObject
  logs : List String
deriving DecidableEq

/-- `MoveInstruction` from `src/crates/vm/src/lib.rs`. -/
inductive MoveInstruction where
  | LoadConst (value : JsonValue)
  | CallFunction (module : String) (function : String)
  | Transfer (object_id : String) (recipient : String)
  | Return
deriving DecidableEq

/-- `MoveBytecode` from `src/crates/vm/src/lib.rs`. -/
structure MoveBytecode where
  instructions : List MoveInstruction
deriving DecidableEq

/-- Debug rendering of a `serde_json::Value` (external, opaque). -/
def fmtJson (v : JsonValue) : String := v.rendered

/-- Debug rendering of a slice of `serde_json::Value`s (external, opaque). -/
def fmtJsonList (vs : List JsonValue) : String :=
  "[" ++ String.intercalate ", " (vs.map fmtJson) ++ "]"

/-- `MoveVMExecutor::execute_function` from `src/crates/vm/src/lib.rs`,
with the fresh id for `ObjectID::random()` supplied by the oracle. -/
def execute_function (freshId : String) (module : String) (function : String)
    (_stack : List JsonValue) : ExecutionResult :=
  match module, function with
  | "coin", "transfer" =>
      { gas_used := 300, touched_objects := [],
        logs := ["Coin transfer executed"] }
  | "coin", "mint" =>
      { gas_used := 200,
        touched_objects := [SuiObject.new { val := freshId }
          (Owner.Address "mint-address") (ObjectData.Coin 1000)],
        logs := ["Coin minted"] }
  | _, _ =>
      { gas_used := 150, touched_objects := [],
        logs := ["Executed " ++ module ++ "::" ++ function] }

/-- Loop state of `MoveVMExecutor::interpret_bytecode`. -/
structure InterpAcc where
  stack : List JsonValue
  gas_used : Nat
  logs : List String
  touched_objects : List SuiObject
deriving DecidableEq

/-- The instruction loop of `MoveVMExecutor::interpret_bytecode`:
interpretation halts at the first `Return`. -/
def interpret_loop {σ : Type} (store? : Option (StoreOps σ)) (freshId : String) :
    List MoveInstruction → InterpAcc → σ → InterpAcc × σ
  | [], acc, s => (acc, s)
  | inst :: rest, acc, s =>
      let acc := { acc with gas_used := acc.gas_used + 50 }
      match inst with
      | .LoadConst value =>
          interpret_loop store? freshId rest
            { acc with stack := acc.stack ++ [value],
                       logs := acc.logs ++ ["Loaded constant: " ++ fmtJson value] } s
      | .CallFunction module function =>
          let result := execute_function freshId module function acc.stack
          interpret_loop store? freshId rest
            { acc with logs := acc.logs ++ result.logs,
                       touched_objects := acc.touched_objects ++ result.touched_objects,
                       gas_used := acc.gas_used + result.gas_used } s
      | .Transfer object_id recipient =>
          match store? with
          | some store =>
              match store.getObject object_id s with
              | .ok (some obj) =>
                  let obj' := { obj with owner := Owner.Address recipient,
                                         version := obj.version + 1 }
                  match store.putObject obj' s with
                  | .ok s' =>
                      interpret_loop store? freshId rest
                        { acc with
                            touched_objects := acc.touched_objects ++ [obj'],
                            logs := acc.logs ++
                              ["Transferred " ++ object_id ++ " to " ++ recipient] } s'
                  | .error _ => interpret_loop store? freshId rest acc s
              | _ => interpret_loop store? freshId rest acc s
          | none => interpret_loop store? freshId rest acc s
      | .Return =>
          ({ acc with logs := acc.logs ++ ["Function returned"] }, s)

/-- `MoveVMExecutor::interpret_bytecode` from `src/crates/vm/src/lib.rs`. -/
def interpret_bytecode {σ : Type} (store? : Option (StoreOps σ)) (freshId : String)
    (bytecode : MoveBytecode) (s : σ) : ExecutionResult × σ :=
  let r := interpret_loop store? freshId bytecode.instructions
    { stack := [], gas_used := 0, logs := [], touched_objects := [] } s
  ({ gas_used := r.1.gas_used, touched_objects := r.1.touched_objects,
     logs := r.1.logs }, r.2)

/-- `MoveVMExecutor::parse_move_call` from `src/crates/vm/src/lib.rs`. -/
def parse_move_call (module : String) (function : String)
    (args : List JsonValue) : MoveBytecode :=
  { instructions :=
      args.map MoveInstruction.LoadConst ++
        [MoveInstruction.CallFunction module function, MoveInstruction.Return] }

/-- `MoveVMExecutor::execute_transfer` from `src/crates/vm/src/lib.rs`:
with a store, a present target is reassigned and re-versioned; an absent
target leaves `touched_objects` empty; without a store a stand-in object
is synthesized. -/
def execute_transfer {σ : Type} (store? : Option (StoreOps σ))
    (object : ObjectID) (recipient : String) (s : σ) : ExecutionResult × σ :=
  match store? with
  | some store =>
      match store.getObject object.val s with
      | .ok (some obj) =>
          let obj' := { obj with owner := Owner.Address recipient,
                                 version := obj.version + 1 }
          match store.putObject obj' s with
          | .error e =>
              ({ gas_used := 500, touched_objects := [],
                 logs := ["Transfer failed: " ++ e] }, s)
          | .ok s' =>
              ({ gas_used := 500, touched_objects := [obj'],
                 logs := ["Transfer executed: " ++ object.val ++ " -> " ++ recipient] },
               s')
      | _ =>
          ({ gas_used := 100, touched_objects := [],
             logs := ["Transfer executed: " ++ object.val ++ " -> " ++ recipient] }, s)
  | none =>
      let new_obj := SuiObject.new { val := object.val ++ "-transferred" }
        (Owner.Address recipient) (ObjectData.Coin 1)
      ({ gas_used := 500, touched_objects := [new_obj],
         logs := ["Transfer executed: " ++ object.val ++ " -> " ++ recipient] }, s)

/-- `MoveVMExecutor::execute_move_call` from `src/crates/vm/src/lib.rs`. -/
def execute_move_call {σ : Type} (store? : Option (StoreOps σ)) (freshId : String)
    (_package : ObjectID) (module : String) (function : String)
    (arguments : List JsonValue) (s : σ) : ExecutionResult × σ :=
  let bytecode := parse_move_call module function arguments
  let r := interpret_bytecode store? freshId bytecode s
  ({ gas_used := r.1.gas_used + 200,
     logs := ["Move call: " ++ module ++ "::" ++ function,
              "Arguments: " ++ fmtJsonList arguments,
              String.intercalate "; " r.1.logs],
     touched_objects := r.1.touched_objects }, r.2)

/-- `MoveVMExecutor::execute` from `src/crates/vm/src/lib.rs`. -/
def MoveVMExecutor.execute {σ : Type} (store? : Option (StoreOps σ))
    (freshId : String) (request : ExecutionRequest) (s : σ) :
    ExecutionResult × σ :=
  match request.tx.payload.kind with
  | .Transfer object recipient => execute_transfer store? object recipient s
  | .Call package module function arguments =>
      execute_move_call store? freshId package module function arguments s

/-! ## Effects builder (`src/crates/effects/src/lib.rs`) -/

/-- `TransactionEffects` from `src/crates/effects/src/lib.rs`. -/
structure TransactionEffects where
  digest : TransactionDigest
  created : List SuiObject
  mutated : List SuiObject
  events : List String
deriving DecidableEq

/-- `TransactionEffects::new`. -/
def TransactionEffects.new (digest : TransactionDigest) : TransactionEffects :=
  { digest := digest, created := [], mutated := [], events := [] }

/-- `EffectsBuilder` from `src/crates/effects/src/lib.rs`. -/
structure EffectsBuilder where
  effects : TransactionEffects
deriving DecidableEq

/-- `EffectsBuilder::new`. -/
def EffectsBuilder.new (digest : TransactionDigest) : EffectsBuilder :=
  { effects := TransactionEffects.new digest }

/-- `EffectsBuilder::record_created`. -/
def EffectsBuilder.record_created (b : EffectsBuilder) (object : SuiObject) :
    EffectsBuilder :=
  { b with effects := { b.effects with created := b.effects.created ++ [object] } }

/-- `EffectsBuilder::record_mutated`. -/
def EffectsBuilder.record_mutated (b : EffectsBuilder) (object : SuiObject) :
    EffectsBuilder :=
  { b with effects := { b.effects with mutated := b.effects.mutated ++ [object] } }

/-- `EffectsBuilder::record_event`. -/
def EffectsBuilder.record_event (b : EffectsBuilder) (event : String) :
    EffectsBuilder :=
  { b with effects := { b.effects with events := b.effects.events ++ [event] } }

/-- `EffectsBuilder::build`. -/
def EffectsBuilder.build (b : EffectsBuilder) : TransactionEffects :=
  b.effects

/-! ## Checkpoint aggregator (`src/crates/checkpoint/src/lib.rs`) -/

/-- `CheckpointAggregator` from `src/crates/checkpoint/src/lib.rs`. -/
structure CheckpointAggregator where
  summaries : List CheckpointSummary
deriving DecidableEq

/-- `CheckpointAggregator::record`. -/
def CheckpointAggregator.record (a : CheckpointAggregator)
    (summary : CheckpointSummary) : CheckpointAggregator :=
  { a with summaries := a.summaries ++ [summary] }

/-- `CheckpointAggregator::latest`. -/
def CheckpointAggregator.latest (a : CheckpointAggregator) :
    Option CheckpointSummary :=
  a.summaries.getLast?

/-- `CheckpointAggregator::total_transactions`. -/
def CheckpointAggregator.total_transactions (a : CheckpointAggregator) : Nat :=
  (a.summaries.map CheckpointSummary.transaction_count).sum

/-! ## In-memory checkpoint store (`src/crates/storage/src/lib.rs`) -/

/-- State of `InMemoryCheckpointStore`: the checkpoint map and the
separately tracked `latest` cell. -/
structure InMemoryCheckpointStore where
  checkpoints : List (Nat × String)
  latest : Option Nat
deriving DecidableEq

/-- `HashMap::insert` for the `u64`-keyed checkpoint map. -/
def insertNatEntry : List (Nat × String) → Nat → String → List (Nat × String)
  | [], k, v => [(k, v)]
  | (k', v') :: rest, k, v =>
      if k' = k then (k, v) :: rest else (k', v') :: insertNatEntry rest k v

/-- `InMemoryCheckpointStore::save_checkpoint`: inserts into the map and
unconditionally overwrites `latest` with this call's sequence. -/
def InMemoryCheckpointStore.save_checkpoint (st : InMemoryCheckpointStore)
    (sequence : Nat) (checkpoint_json : String) : InMemoryCheckpointStore :=
  { checkpoints := insertNatEntry st.checkpoints sequence checkpoint_json,
    latest := some sequence }

/-- `InMemoryCheckpointStore::get_latest_sequence`. -/
def InMemoryCheckpointStore.get_latest_sequence (st : InMemoryCheckpointStore) :
    Option Nat :=
  st.latest

/-! ## Validator orchestrator (`src/crates/validator/src/lib.rs`)

`ValidatorNode::handle_transaction` is embedded as a state transformer
over the node-internal state (lock table, sequence counter, checkpoint
aggregator) and the abstract external store state `σ`.  `serde_json::to_string`
is an external total serializer passed as a parameter; the best-effort
nautilus notification (`let _ = ...send_transaction_sync(...)`) touches
none of this state and is elided. -/

/-- Node-internal mutable state of `ValidatorNode`: the lock manager's
table, the sequence counter, and the checkpoint aggregator. -/
structure NodeState where
  lockTable : LockTable
  sequence : Nat
  checkpoints : CheckpointAggregator
deriving DecidableEq

/-- The `simulated_object` built inside `ValidatorNode::handle_transaction`. -/
def simulatedObject : SuiObject :=
  SuiObject.new { val := "object-to-lock" } Owner.Shared (ObjectData.Coin 0)

/-- The `for obj in &exec_result.touched_objects { put_object(obj)? }`
loop of `handle_transaction`: stops at, and propagates, the first error. -/
def putAll {σ : Type} (ops : StoreOps σ) :
    List SuiObject → σ → Except String σ
  | [], s => .ok s
  | obj :: rest, s =>
      match ops.putObject obj s with
      | .error e => .error e
      | .ok s' => putAll ops rest s'

/-- The effects-accumulation loop of `handle_transaction`: every touched
object is recorded as created, every log as an event. -/
def buildEffects (digest : TransactionDigest) (result : ExecutionResult) :
    TransactionEffects :=
  let b := result.touched_objects.foldl EffectsBuilder.record_created
    (EffectsBuilder.new digest)
  let b := result.logs.foldl EffectsBuilder.record_event b
  b.build

/-- Steps 3-8 of `ValidatorNode::handle_transaction` (after pre-check and
lock acquisition): execute, write touched objects back, persist effects,
sequence and record the checkpoint, persist it, and release the lock on
the success path. -/
def afterLock {σ : Type} (ops : StoreOps σ)
    (serEffects : TransactionEffects → String)
    (serCheckpoint : CheckpointSummary → String) (freshId : String)
    (request : ExecutionRequest) (report : PreCheckReport)
    (node : NodeState) (s : σ) :
    Except String TransactionEffects × NodeState × σ :=
  let r := MoveVMExecutor.execute (some ops) freshId request s
  let exec_result := r.1
  let s1 := r.2
  match putAll ops exec_result.touched_objects s1 with
  | .error e => (.error e, node, s1)
  | .ok s2 =>
      let effects := buildEffects request.digest exec_result
      match ops.saveEffects request.digest.val (serEffects effects) s2 with
      | .error e => (.error e, node, s2)
      | .ok s3 =>
          let current_seq := node.sequence + 1
          let checkpoint : CheckpointSummary :=
            { sequence_number := current_seq, transaction_count := 1,
              root_digest := request.digest.val }
          let node1 := { node with
            sequence := current_seq,
            checkpoints := node.checkpoints.record checkpoint }
          match ops.saveCheckpoint current_seq (serCheckpoint checkpoint) s3 with
          | .error e => (.error e, node1, s3)
          | .ok s4 =>
              if report.requires_shared_lock then
                let released := LockManager.release node1.lockTable
                  simulatedObject LockMode.Exclusive
                (.ok effects, { node1 with lockTable := released }, s4)
              else
                (.ok effects, node1, s4)

/-- `ValidatorNode::handle_transaction` from `src/crates/validator/src/lib.rs`. -/
def handleTransaction {σ : Type} (ops : StoreOps σ)
    (serEffects : TransactionEffects → String)
    (serCheckpoint : CheckpointSummary → String) (freshId : String)
    (request : ExecutionRequest) (node : NodeState) (s : σ) :
    Except String TransactionEffects × NodeState × σ :=
  match PreCheckPipeline.run request with
  | .error e => (.error ("pre-check failed: " ++ e.message), node, s)
  | .ok report =>
      if report.requires_shared_lock then
        let a := LockManager.acquire node.lockTable simulatedObject
          LockMode.Exclusive
        if a.1 then
          afterLock ops serEffects serCheckpoint freshId request report
            { node with lockTable := a.2 } s
        else
          (.error "unable to acquire lock for shared object",
           { node with lockTable := a.2 }, s)
      else
        afterLock ops serEffects serCheckpoint freshId request report node s

/-- The initial state of a fresh `ValidatorNode`: empty lock table,
sequence counter 0, empty checkpoint aggregator. -/
def initialNode : NodeState :=
  { lockTable := [], sequence := 0, checkpoints := { summaries := [] } }

/-- A sequential run of `handle_transaction` calls on one node, each with
its own fresh-id oracle value, collecting every call's outcome. -/
def runAll {σ : Type} (ops : StoreOps σ)
    (serEffects : TransactionEffects → String)
    (serCheckpoint : CheckpointSummary → String) :
    List (String × ExecutionRequest) → NodeState → σ →
      List (Except String TransactionEffects) × NodeState × σ
  | [], node, s => ([], node, s)
  | (freshId, request) :: rest, node, s =>
      let r := handleTransaction ops serEffects serCheckpoint freshId request
        node s
      let rr := runAll ops serEffects serCheckpoint rest r.2.1 r.2.2
      (r.1 :: rr.1, rr.2)

/-! ## Concrete fixtures

Concrete store backends and requests used to evaluate the model at
specific inputs (mirroring the repository's demo programs, which seed
in-memory stores and submit transfer and `coin::mint` call requests). -/

/-- A trivially succeeding store backend over the unit state: reads find
nothing, writes always succeed. -/
def unitStoreOps : StoreOps Unit :=
  { getObject := fun _ _ => .ok none,
    putObject := fun _ _ => .ok (),
    saveEffects := fun _ _ _ => .ok (),
    saveCheckpoint := fun _ _ _ => .ok () }

/-- A store backend whose effects store always fails, modelling a
persistence fault after successful execution. -/
def failingEffectsStoreOps : StoreOps Unit :=
  { unitStoreOps with saveEffects := fun _ _ _ => .error "effects store failure" }

/-- A `coin::mint` call request with gas budget 5000. -/
def reqMint : ExecutionRequest :=
  { tx := { signer := "alice",
            payload := { kind := TransactionKind.Call { val := "pkg" } "coin" "mint" [],
                         gas_budget := 5000 },
            signature := "sig" },
    digest := { val := "digest-1" } }

/-- A second `coin::mint` call request, distinct digest. -/
def reqMint2 : ExecutionRequest :=
  { reqMint with digest := { val := "digest-2" } }

/-- A transfer request for an object that is not seeded in the store. -/
def reqTransfer : ExecutionRequest :=
  { tx := { signer := "alice",
            payload := { kind := TransactionKind.Transfer { val := "coin-alice-1" } "bob",
                         gas_budget := 1000 },
            signature := "sig" },
    digest := { val := "digest-t" } }

/-- The mint request with its gas budget zeroed out. -/
def reqZeroGas : ExecutionRequest :=
  { reqMint with tx := { reqMint.tx with
      payload := { reqMint.tx.payload with gas_budget := 0 } } }

/-- The effects `handleTransaction` produces for `reqMint` on the trivial
backend with fresh id `fresh-1`. -/
def mintEffects : TransactionEffects :=
  { digest := { val := "digest-1" },
    created := [{ id := { val := "fresh-1" }, version := 1,
                  owner := Owner.Address "mint-address",
                  data := ObjectData.Coin 1000 }],
    mutated := [],
    events := ["Move call: coin::mint", "Arguments: []",
               "Coin minted; Function returned"] }

/-- The node state after handling `reqMint` from the initial state. -/
def nodeAfterMint : NodeState :=
  { lockTable := [], sequence := 1,
    checkpoints := { summaries := [{ sequence_number := 1, transaction_count := 1,
                                     root_digest := "digest-1" }] } }

/-! ## Lock table lemmas -/

theorem mem_insertEntry {t : LockTable} {k : String} {v : LockState}
    {e : String × LockState} (h : e ∈ insertEntry t k v) :
    e = (k, v) ∨ e ∈ t := by
  induction t with
  | nil => simpa [insertEntry] using h
  | cons hd tl ih =>
      obtain ⟨k', v'⟩ := hd
      simp only [insertEntry] at h
      by_cases hk : k' = k
      · simp [hk] at h
        rcases h with h | h
        · exact Or.inl (by simp [h])
        · exact Or.inr (List.mem_cons_of_mem _ h)
      · simp [hk] at h
        rcases h with h | h
        · exact Or.inr (by simp [h])
        · rcases ih h with h1 | h1
          · exact Or.inl h1
          · exact Or.inr (List.mem_cons_of_mem _ h1)

theorem mem_eraseKey {t : LockTable} {k : String} {e : String × LockState}
    (h : e ∈ eraseKey t k) : e ∈ t := by
  induction t with
  | nil => simp [eraseKey] at h
  | cons hd tl ih =>
      obtain ⟨k', v'⟩ := hd
      simp only [eraseKey] at h
      by_cases hk : k' = k
      · simp [hk] at h
        exact List.mem_cons_of_mem _ h
      · simp [hk] at h
        rcases h with h | h
        · exact by simp [h]
        · exact List.mem_cons_of_mem _ (ih h)

theorem lookupKey_mem {t : LockTable} {k : String} {v : LockState}
    (h : lookupKey t k = some v) : (k, v) ∈ t := by
  induction t with
  | nil => simp [lookupKey] at h
  | cons hd tl ih =>
      obtain ⟨k', v'⟩ := hd
      simp only [lookupKey] at h
      by_cases hk : k' = k
      · simp [hk] at h
        simp [hk, h]
      · simp [hk] at h
        exact List.mem_cons_of_mem _ (ih h)

theorem lookupKey_insertEntry_self (t : LockTable) (k : String) (v : LockState) :
    lookupKey (insertEntry t k v) k = some v := by
  induction t with
  | nil => simp [insertEntry, lookupKey]
  | cons hd tl ih =>
      obtain ⟨k', v'⟩ := hd
      by_cases hk : k' = k
      · simp [insertEntry, hk, lookupKey]
      · simp [insertEntry, hk, lookupKey, ih]

theorem insertEntry_self_of_lookup {t : LockTable} {k : String} {v : LockState}
    (h : lookupKey t k = some v) : insertEntry t k v = t := by
  induction t with
  | nil => simp [lookupKey] at h
  | cons hd tl ih =>
      obtain ⟨k', v'⟩ := hd
      simp only [lookupKey] at h
      by_cases hk : k' = k
      · simp [hk] at h
        simp [insertEntry, hk, h]
      · simp [hk] at h
        simp [insertEntry, hk, ih h]

theorem eraseKey_insertEntry (t : LockTable) (k : String) (v : LockState) :
    eraseKey (insertEntry t k v) k = eraseKey t k := by
  induction t with
  | nil => simp [insertEntry, eraseKey]
  | cons hd tl ih =>
      obtain ⟨k', v'⟩ := hd
      by_cases hk : k' = k
      · simp [insertEntry, hk, eraseKey]
      · simp [insertEntry, hk, eraseKey, ih]

/-- The per-entry invariant of the lock table: an entry never mixes an
exclusive holder with shared holders, and never exists with no holders
at all. -/
def EntryOk (s : LockState) : Prop :=
  (s.exclusive = true → s.shared_count = 0) ∧
    (s.exclusive = false → s.shared_count ≠ 0)

instance (s : LockState) : Decidable (EntryOk s) := by
  unfold EntryOk
  infer_instance

/-- The lock-table invariant: every entry satisfies `EntryOk`. -/
def TableInv (t : LockTable) : Prop := ∀ e ∈ t, EntryOk e.2

instance (t : LockTable) : Decidable (TableInv t) := by
  unfold TableInv
  exact List.decidableBAll _ t

theorem lookup_of_stateOf_exclusive {t : LockTable} {k : String}
    (h : (stateOf t k).exclusive = true) :
    lookupKey t k = some (stateOf t k) := by
  cases hl : lookupKey t k with
  | none => exfalso; simp [stateOf, hl] at h
  | some st => simp [stateOf, hl]

theorem lookup_of_stateOf_shared {t : LockTable} {k : String}
    (h : (stateOf t k).shared_count ≠ 0) :
    lookupKey t k = some (stateOf t k) := by
  cases hl : lookupKey t k with
  | none => exfalso; simp [stateOf, hl] at h
  | some st => simp [stateOf, hl]

theorem acquireKey_inv {t : LockTable} (k : String) (mode : LockMode)
    (hinv : TableInv t) : TableInv (acquireKey t k mode).2 := by
  intro e he
  rcases hst : stateOf t k with ⟨c, ex⟩
  simp only [acquireKey, hst] at he
  cases mode with
  | Shared =>
      cases ex with
      | false =>
          simp at he
          rcases mem_insertEntry he with h | h
          · rw [h]
            refine ⟨fun hx => ?_, fun _ => ?_⟩
            · cases hx
            · simp
          · exact hinv _ h
      | true =>
          simp at he
          rcases mem_insertEntry he with h | h
          · have hlk : lookupKey t k = some (LockState.mk c true) :=
              hst ▸ lookup_of_stateOf_exclusive (by rw [hst])
            exact h ▸ hinv _ (lookupKey_mem hlk)
          · exact hinv _ h
  | Exclusive =>
      cases ex with
      | false =>
          by_cases hc : c = 0
          · subst hc
            simp at he
            rcases mem_insertEntry he with h | h
            · rw [h]
              refine ⟨fun _ => rfl, fun hx => ?_⟩
              cases hx
            · exact hinv _ h
          · simp [Nat.pos_of_ne_zero hc] at he
            rcases mem_insertEntry he with h | h
            · have hlk : lookupKey t k = some (LockState.mk c false) :=
                hst ▸ lookup_of_stateOf_shared (by rw [hst]; exact hc)
              exact h ▸ hinv _ (lookupKey_mem hlk)
            · exact hinv _ h
      | true =>
          simp at he
          rcases mem_insertEntry he with h | h
          · have hlk : lookupKey t k = some (LockState.mk c true) :=
              hst ▸ lookup_of_stateOf_exclusive (by rw [hst])
            exact h ▸ hinv _ (lookupKey_mem hlk)
          · exact hinv _ h

theorem releaseKey_inv {t : LockTable} (k : String) (mode : LockMode)
    (hinv : TableInv t) : TableInv (releaseKey t k mode) := by
  intro e he
  simp only [releaseKey] at he
  cases hlk : lookupKey t k with
  | none =>
      rw [hlk] at he
      exact hinv _ he
  | some state =>
      rw [hlk] at he
      have hok : EntryOk state := hinv _ (lookupKey_mem hlk)
      cases mode with
      | Shared =>
          simp only at he
          split at he
          · exact hinv _ (mem_eraseKey he)
          · rename_i hcond
            simp only [Bool.and_eq_true, decide_eq_true_eq] at hcond
            rcases mem_insertEntry he with h | h
            · have hen : EntryOk (LockState.mk (state.shared_count - 1) state.exclusive) := by
                constructor
                · intro hx
                  show state.shared_count - 1 = 0
                  have := hok.1 hx
                  omega
                · intro hx
                  show state.shared_count - 1 ≠ 0
                  intro hzero
                  exact hcond ⟨hzero, hx⟩
              rw [h]
              exact hen
            · exact hinv _ h
      | Exclusive =>
          simp only at he
          split at he
          · exact hinv _ (mem_eraseKey he)
          · rename_i hcond
            simp only [Bool.and_eq_true, decide_eq_true_eq] at hcond
            rcases mem_insertEntry he with h | h
            · have hen : EntryOk (LockState.mk state.shared_count false) := by
                constructor
                · intro hx
                  simp at hx
                · intro _
                  show state.shared_count ≠ 0
                  intro hzero
                  exact hcond ⟨hzero, trivial⟩
              rw [h]
              exact hen
            · exact hinv _ h

/-- A call against the lock manager: either an `acquire` (result boolean
discarded) or a `release`, against an object in a mode. -/
inductive LockOp where
  | acq (object : SuiObject) (mode : LockMode)
  | rel (object : SuiObject) (mode : LockMode)

/-- Effect of one lock-manager call on the lock table. -/
def applyLockOp (t : LockTable) : LockOp → LockTable
  | .acq o m => (LockManager.acquire t o m).2
  | .rel o m => LockManager.release t o m

/-- The lock table after a sequence of acquire/release calls starting
from the empty table. -/
def runLockOps (ops : List LockOp) : LockTable :=
  ops.foldl applyLockOp []

theorem foldl_lockOps_inv (ops : List LockOp) :
    ∀ t : LockTable, TableInv t → TableInv (ops.foldl applyLockOp t) := by
  induction ops with
  | nil => intro t h; exact h
  | cons op rest ih =>
      intro t h
      simp only [List.foldl_cons]
      apply ih
      cases op with
      | acq o m => exact acquireKey_inv _ _ h
      | rel o m => exact releaseKey_inv _ _ h

theorem acquireKey_fail_unchanged {t : LockTable} {k : String} {mode : LockMode}
    (h : (acquireKey t k mode).1 = false) : (acquireKey t k mode).2 = t := by
  rcases hst : stateOf t k with ⟨c, ex⟩
  cases mode with
  | Shared =>
      cases ex with
      | false => simp [acquireKey, hst] at h
      | true =>
          have hlk : lookupKey t k = some (LockState.mk c true) :=
            hst ▸ lookup_of_stateOf_exclusive (by rw [hst])
          simp [acquireKey, hst]
          exact insertEntry_self_of_lookup hlk
  | Exclusive =>
      cases ex with
      | false =>
          by_cases hc : c = 0
          · subst hc
            simp [acquireKey, hst] at h
          · have hlk : lookupKey t k = some (LockState.mk c false) :=
              hst ▸ lookup_of_stateOf_shared (by rw [hst]; exact hc)
            simp [acquireKey, hst, Nat.pos_of_ne_zero hc]
            exact insertEntry_self_of_lookup hlk
      | true =>
          have hlk : lookupKey t k = some (LockState.mk c true) :=
            hst ▸ lookup_of_stateOf_exclusive (by rw [hst])
          simp [acquireKey, hst]
          exact insertEntry_self_of_lookup hlk

theorem acquireKey_exclusive_iff (t : LockTable) (k : String) :
    (acquireKey t k LockMode.Exclusive).1 = true ↔
      (stateOf t k).exclusive = false ∧ (stateOf t k).shared_count = 0 := by
  rcases hst : stateOf t k with ⟨c, ex⟩
  cases ex with
  | false =>
      by_cases hc : c = 0
      · subst hc
        simp [acquireKey, hst]
      · simp [acquireKey, hst, Nat.pos_of_ne_zero hc, hc]
  | true => simp [acquireKey, hst]

theorem acquireKey_shared_iff (t : LockTable) (k : String) :
    (acquireKey t k LockMode.Shared).1 = true ↔
      (stateOf t k).exclusive = false := by
  rcases hst : stateOf t k with ⟨c, ex⟩
  cases ex with
  | false => simp [acquireKey, hst]
  | true => simp [acquireKey, hst]

theorem acquireKey_exclusive_sets (t : LockTable) (k : String)
    (h : (acquireKey t k LockMode.Exclusive).1 = true) :
    lookupKey (acquireKey t k LockMode.Exclusive).2 k =
      some (LockState.mk 0 true) := by
  have hc := (acquireKey_exclusive_iff t k).mp h
  rcases hst : stateOf t k with ⟨c, ex⟩
  rw [hst] at hc
  obtain ⟨hex, hsh⟩ := hc
  simp only at hex hsh
  subst hex
  subst hsh
  simp [acquireKey, hst, lookupKey_insertEntry_self]

theorem acquireKey_shared_sets (t : LockTable) (k : String)
    (h : (acquireKey t k LockMode.Shared).1 = true) :
    lookupKey (acquireKey t k LockMode.Shared).2 k =
      some (LockState.mk ((stateOf t k).shared_count + 1) false) := by
  have hc := (acquireKey_shared_iff t k).mp h
  rcases hst : stateOf t k with ⟨c, ex⟩
  rw [hst] at hc
  simp only at hc
  subst hc
  simp [acquireKey, hst, lookupKey_insertEntry_self]

/-- C3: starting from the empty lock table, after any sequence of acquire
and release calls no entry ever has the exclusive flag set together with a
positive shared-holder count, and no entry with zero shared holders and a
cleared exclusive flag remains in the table. -/
theorem lock_table_invariant_reachable (ops : List LockOp) :
    TableInv (runLockOps ops) :=
  foldl_lockOps_inv ops [] (by intro e he; simp at he)

/-- C7: `acquire(Exclusive)` succeeds and sets the exclusive flag exactly
when the entry for the object's lock key has zero shared holders and no
exclusive holder; `acquire(Shared)` succeeds and increments the shared
count exactly when no exclusive holder exists; a failed acquire leaves
the table unchanged. -/
theorem lock_acquire_spec (t : LockTable) (o : SuiObject) :
    ((LockManager.acquire t o LockMode.Exclusive).1 = true ↔
      (stateOf t o.lock_key).exclusive = false ∧
        (stateOf t o.lock_key).shared_count = 0)
    ∧ ((LockManager.acquire t o LockMode.Exclusive).1 = true →
        lookupKey (LockManager.acquire t o LockMode.Exclusive).2 o.lock_key =
          some (LockState.mk 0 true))
    ∧ ((LockManager.acquire t o LockMode.Shared).1 = true ↔
        (stateOf t o.lock_key).exclusive = false)
    ∧ ((LockManager.acquire t o LockMode.Shared).1 = true →
        lookupKey (LockManager.acquire t o LockMode.Shared).2 o.lock_key =
          some (LockState.mk ((stateOf t o.lock_key).shared_count + 1) false))
    ∧ (∀ mode, (LockManager.acquire t o mode).1 = false →
        (LockManager.acquire t o mode).2 = t) := by
  refine ⟨acquireKey_exclusive_iff t o.lock_key,
    acquireKey_exclusive_sets t o.lock_key,
    acquireKey_shared_iff t o.lock_key,
    acquireKey_shared_sets t o.lock_key,
    fun mode h => acquireKey_fail_unchanged h⟩

/-- Witness for C7 at the empty table and the validator's designated lock
object. -/
theorem lock_acquire_spec_witness :
    ((LockManager.acquire [] simulatedObject LockMode.Exclusive).1 = true ↔
      (stateOf [] simulatedObject.lock_key).exclusive = false ∧
        (stateOf [] simulatedObject.lock_key).shared_count = 0)
    ∧ ((LockManager.acquire [] simulatedObject LockMode.Exclusive).1 = true →
        lookupKey (LockManager.acquire [] simulatedObject LockMode.Exclusive).2
          simulatedObject.lock_key = some (LockState.mk 0 true))
    ∧ ((LockManager.acquire [] simulatedObject LockMode.Shared).1 = true ↔
        (stateOf [] simulatedObject.lock_key).exclusive = false)
    ∧ ((LockManager.acquire [] simulatedObject LockMode.Shared).1 = true →
        lookupKey (LockManager.acquire [] simulatedObject LockMode.Shared).2
          simulatedObject.lock_key =
            some (LockState.mk ((stateOf [] simulatedObject.lock_key).shared_count + 1) false))
    ∧ (∀ mode, (LockManager.acquire [] simulatedObject mode).1 = false →
        (LockManager.acquire [] simulatedObject mode).2 = []) :=
  lock_acquire_spec [] simulatedObject

/-! ## Checkpoint store and pre-check claims -/

/-- C10: after any `save_checkpoint(s, j)` on the in-memory checkpoint
store, `get_latest_sequence()` returns `some s` — the sequence of the most
recent save — even when `s` is smaller than a previously saved sequence:
`latest` tracks last-save order, not the maximum. -/
theorem checkpoint_latest_tracks_last_save (st : InMemoryCheckpointStore)
    (sequence : Nat) (checkpoint_json : String) :
    (st.save_checkpoint sequence checkpoint_json).get_latest_sequence =
      some sequence := rfl

/-- C5: the pre-check returns `InvalidGasBudget` exactly on a zero gas
budget; otherwise, for Transfer kind, `MissingRecipient` exactly when the
recipient trims to empty, else a report with both flags false; for Call
kind, `InvalidCall` exactly when the module or the function name is empty,
else a report with both flags true. -/
theorem precheck_run_spec (request : ExecutionRequest) :
    (PreCheckPipeline.run request = .error PreCheckError.InvalidGasBudget ↔
      request.tx.payload.gas_budget = 0)
    ∧ (PreCheckPipeline.run request = .error PreCheckError.MissingRecipient ↔
      request.tx.payload.gas_budget ≠ 0 ∧
        ∃ o r, request.tx.payload.kind = TransactionKind.Transfer o r ∧
          r.trim.isEmpty = true)
    ∧ (PreCheckPipeline.run request = .error PreCheckError.InvalidCall ↔
      request.tx.payload.gas_budget ≠ 0 ∧
        ∃ p m f a, request.tx.payload.kind = TransactionKind.Call p m f a ∧
          (m.isEmpty = true ∨ f.isEmpty = true))
    ∧ (∀ report, PreCheckPipeline.run request = .ok report ↔
      request.tx.payload.gas_budget ≠ 0 ∧
        ((∃ o r, request.tx.payload.kind = TransactionKind.Transfer o r ∧
            r.trim.isEmpty = false ∧
            report = PreCheckReport.mk false false) ∨
         (∃ p m f a, request.tx.payload.kind = TransactionKind.Call p m f a ∧
            m.isEmpty = false ∧ f.isEmpty = false ∧
            report = PreCheckReport.mk true true))) := by
  obtain ⟨⟨signer, ⟨kind, gas⟩, sig⟩, digest⟩ := request
  by_cases hg : gas = 0
  · subst hg
    cases kind <;> simp [PreCheckPipeline.run]
  · cases kind with
    | Transfer o r =>
        by_cases hr : r.trim.isEmpty
        · simp [PreCheckPipeline.run, hg, hr]
          exact ⟨o, r, ⟨rfl, rfl⟩, hr⟩
        · simp only [Bool.not_eq_true] at hr
          simp [PreCheckPipeline.run, hg, hr]
          intro report
          constructor
          · intro h
            exact ⟨o, r, ⟨rfl, rfl⟩, hr, h.symm⟩
          · rintro ⟨o1, r1, ⟨ho, hrr⟩, hr1, hrep⟩
            exact hrep.symm
    | Call p m f a =>
        by_cases hm : m.isEmpty
        · simp [PreCheckPipeline.run, hg, hm]
          exact ⟨p, m, f, ⟨rfl, rfl, rfl⟩, Or.inl hm⟩
        · by_cases hf : f.isEmpty
          · simp [PreCheckPipeline.run, hg, hm, hf]
            exact ⟨p, m, f, ⟨rfl, rfl, rfl⟩, Or.inr hf⟩
          · simp only [Bool.not_eq_true] at hm hf
            simp [PreCheckPipeline.run, hg, hm, hf]
            intro report
            constructor
            · intro h
              exact ⟨p, m, f, ⟨rfl, rfl, rfl⟩, hm, hf, h.symm⟩
            · rintro ⟨p1, m1, f1, heq, hm1, hf1, hrep⟩
              exact hrep.symm

/-! ## Execution engine claims -/

theorem interpret_loop_loadConsts {σ : Type} (store? : Option (StoreOps σ))
    (freshId : String) (args : List JsonValue) (rest : List MoveInstruction)
    (st : List JsonValue) (g : Nat) (lg : List String) (tc : List SuiObject)
    (s : σ) :
    interpret_loop store? freshId (args.map MoveInstruction.LoadConst ++ rest)
      (InterpAcc.mk st g lg tc) s =
      interpret_loop store? freshId rest
        (InterpAcc.mk (st ++ args) (g + 50 * args.length)
          (lg ++ args.map (fun v => "Loaded constant: " ++ fmtJson v)) tc) s := by
  induction args generalizing st g lg with
  | nil => simp
  | cons a as ih =>
      simp only [List.map_cons, List.cons_append, interpret_loop, List.append_eq]
      rw [ih]
      have h1 : (st ++ [a]) ++ as = st ++ a :: as := by simp
      have h2 : g + 50 + 50 * as.length = g + 50 * (a :: as).length := by
        simp [List.length_cons]
        ring
      have h3 : (lg ++ ["Loaded constant: " ++ fmtJson a]) ++
            as.map (fun v => "Loaded constant: " ++ fmtJson v) =
          lg ++ (a :: as).map (fun v => "Loaded constant: " ++ fmtJson v) := by
        simp
      rw [h1, h2, h3]
      simp

theorem execute_move_call_mint {σ : Type} (store? : Option (StoreOps σ))
    (freshId : String) (package : ObjectID) (args : List JsonValue) (s : σ) :
    (execute_move_call store? freshId package "coin" "mint" args s).1.touched_objects =
      [SuiObject.new { val := freshId } (Owner.Address "mint-address")
        (ObjectData.Coin 1000)] := by
  simp only [execute_move_call, interpret_bytecode, parse_move_call]
  rw [interpret_loop_loadConsts store? freshId args
    [MoveInstruction.CallFunction "coin" "mint", MoveInstruction.Return] [] 0 [] [] s]
  simp [interpret_loop, execute_function]

/-- C8: executing a Call request to module `coin`, function `mint`,
touches exactly one newly created coin object of balance 1000, version 1,
owned by the fixed address `mint-address`, and the logs contain the entry
naming `coin::mint`. -/
theorem coin_mint_execution {σ : Type} (store? : Option (StoreOps σ))
    (freshId signer sig : String) (package : ObjectID) (args : List JsonValue)
    (gas : Nat) (digest : TransactionDigest) (s : σ) :
    (MoveVMExecutor.execute store? freshId
        { tx := { signer := signer,
                  payload := { kind := TransactionKind.Call package "coin" "mint" args,
                               gas_budget := gas },
                  signature := sig },
          digest := digest } s).1.touched_objects =
      [SuiObject.new { val := freshId } (Owner.Address "mint-address")
        (ObjectData.Coin 1000)]
    ∧ "Move call: coin::mint" ∈
        (MoveVMExecutor.execute store? freshId
          { tx := { signer := signer,
                    payload := { kind := TransactionKind.Call package "coin" "mint" args,
                                 gas_budget := gas },
                    signature := sig },
            digest := digest } s).1.logs := by
  constructor
  · simpa [MoveVMExecutor.execute] using
      execute_move_call_mint store? freshId package args s
  · simp [MoveVMExecutor.execute, execute_move_call]

/-- C1 (amended): with an object store configured, a Transfer whose target
is absent from the store (or whose read fails) produces an empty
`touched_objects` list; the stand-in object is synthesized only when no
object store is configured at all. -/
theorem transfer_missing_object_amended {σ : Type} (ops : StoreOps σ)
    (object : ObjectID) (recipient : String) (s : σ)
    (h : ops.getObject object.val s = .ok none) :
    (execute_transfer (some ops) object recipient s).1.touched_objects = []
    ∧ (execute_transfer (none : Option (StoreOps σ)) object recipient s).1.touched_objects =
        [SuiObject.new { val := object.val ++ "-transferred" }
          (Owner.Address recipient) (ObjectData.Coin 1)] := by
  constructor
  · simp [execute_transfer, h]
  · simp [execute_transfer]

/-- Witness for the amended C1 at the unseeded trivial backend. -/
theorem transfer_missing_object_amended_witness :
    (execute_transfer (some unitStoreOps) { val := "coin-alice-1" } "bob" ()).1.touched_objects = []
    ∧ (execute_transfer (none : Option (StoreOps Unit)) { val := "coin-alice-1" } "bob" ()).1.touched_objects =
        [SuiObject.new { val := "coin-alice-1" ++ "-transferred" }
          (Owner.Address "bob") (ObjectData.Coin 1)] :=
  transfer_missing_object_amended unitStoreOps { val := "coin-alice-1" } "bob" () rfl

/-- Counterexample to C1 as stated: executing `reqTransfer` (a Transfer)
with an object store configured (`unitStoreOps`) and the target object
absent returns an empty `touched_objects` list — no stand-in object is
synthesized. -/
theorem transfer_missing_object_cex :
    (MoveVMExecutor.execute (some unitStoreOps) "fresh" reqTransfer ()).1.touched_objects = [] :=
  rfl

/-! ## Effects builder lemmas -/

theorem foldl_record_created (objs : List SuiObject) (b : EffectsBuilder) :
    (objs.foldl EffectsBuilder.record_created b).effects =
      { b.effects with created := b.effects.created ++ objs } := by
  induction objs generalizing b with
  | nil => simp
  | cons o os ih =>
      simp only [List.foldl_cons]
      rw [ih]
      simp [EffectsBuilder.record_created]

theorem foldl_record_event (evs : List String) (b : EffectsBuilder) :
    (evs.foldl EffectsBuilder.record_event b).effects =
      { b.effects with events := b.effects.events ++ evs } := by
  induction evs generalizing b with
  | nil => simp
  | cons ev evs ih =>
      simp only [List.foldl_cons]
      rw [ih]
      simp [EffectsBuilder.record_event]

theorem buildEffects_spec (digest : TransactionDigest) (result : ExecutionResult) :
    buildEffects digest result =
      { digest := digest, created := result.touched_objects, mutated := [],
        events := result.logs } := by
  simp [buildEffects, EffectsBuilder.build, foldl_record_event,
    foldl_record_created, EffectsBuilder.new, TransactionEffects.new]

/-! ## Orchestrator lemmas -/

theorem acquireKey_exclusive_table (t : LockTable) (k : String)
    (h : (acquireKey t k LockMode.Exclusive).1 = true) :
    (acquireKey t k LockMode.Exclusive).2 =
      insertEntry t k (LockState.mk 0 true) := by
  have hc := (acquireKey_exclusive_iff t k).mp h
  rcases hst : stateOf t k with ⟨c, ex⟩
  rw [hst] at hc
  simp only at hc
  obtain ⟨h1, h2⟩ := hc
  subst h1
  subst h2
  simp [acquireKey, hst]

theorem release_after_acquire_exclusive {t : LockTable} {k : String}
    (h : (acquireKey t k LockMode.Exclusive).1 = true) :
    releaseKey (acquireKey t k LockMode.Exclusive).2 k LockMode.Exclusive =
      eraseKey t k := by
  rw [acquireKey_exclusive_table t k h]
  simp only [releaseKey, lookupKey_insertEntry_self]
  simp [eraseKey_insertEntry]

theorem afterLock_ok {σ : Type} {ops : StoreOps σ}
    {serE : TransactionEffects → String} {serC : CheckpointSummary → String}
    {freshId : String} {request : ExecutionRequest} {report : PreCheckReport}
    {node : NodeState} {s : σ} {e : TransactionEffects} {node' : NodeState}
    {s' : σ}
    (h : afterLock ops serE serC freshId request report node s =
      (.ok e, node', s')) :
    node'.sequence = node.sequence + 1 ∧
    node'.checkpoints.summaries = node.checkpoints.summaries ++
      [CheckpointSummary.mk (node.sequence + 1) 1 request.digest.val] ∧
    e = buildEffects request.digest
      (MoveVMExecutor.execute (some ops) freshId request s).1 ∧
    node'.lockTable = (if report.requires_shared_lock then
        releaseKey node.lockTable simulatedObject.lock_key LockMode.Exclusive
      else node.lockTable) := by
  simp only [afterLock] at h
  split at h
  · simp at h
  · split at h
    · simp at h
    · split at h
      · simp at h
      · split at h
        · rename_i hreq
          simp only [Prod.mk.injEq, Except.ok.injEq] at h
          obtain ⟨he, hn, hs⟩ := h
          subst hn
          simp [CheckpointAggregator.record, hreq, LockManager.release, he]
        · rename_i hreq
          simp only [Prod.mk.injEq, Except.ok.injEq] at h
          obtain ⟨he, hn, hs⟩ := h
          subst hn
          simp only [Bool.not_eq_true] at hreq
          simp [CheckpointAggregator.record, hreq, he]

theorem handleTransaction_ok_state {σ : Type} {ops : StoreOps σ}
    {serE : TransactionEffects → String} {serC : CheckpointSummary → String}
    {freshId : String} {request : ExecutionRequest} {node : NodeState} {s : σ}
    {e : TransactionEffects} {node' : NodeState} {s' : σ}
    (h : handleTransaction ops serE serC freshId request node s =
      (.ok e, node', s')) :
    node'.sequence = node.sequence + 1 ∧
    node'.checkpoints.summaries = node.checkpoints.summaries ++
      [CheckpointSummary.mk (node.sequence + 1) 1 request.digest.val] ∧
    e = buildEffects request.digest
      (MoveVMExecutor.execute (some ops) freshId request s).1 := by
  simp only [handleTransaction] at h
  split at h
  · simp at h
  · split at h
    · split at h
      · have ha := afterLock_ok h
        exact ⟨ha.1, ha.2.1, ha.2.2.1⟩
      · simp at h
    · have ha := afterLock_ok h
      exact ⟨ha.1, ha.2.1, ha.2.2.1⟩

/-- Concrete evaluation: handling `reqMint` on the trivial backend from
the initial state succeeds with `mintEffects` and leaves `nodeAfterMint`. -/
theorem handle_mint_eval :
    handleTransaction unitStoreOps (fun _ => "") (fun _ => "") "fresh-1"
      reqMint initialNode () = (.ok mintEffects, nodeAfterMint, ()) := by
  rfl

/-- C9 (implicit): any effects value returned by a successful
`handle_transaction` has an empty `mutated` list — every object touched by
execution is recorded in `created`. -/
theorem effects_mutated_empty {σ : Type} {ops : StoreOps σ}
    {serE : TransactionEffects → String} {serC : CheckpointSummary → String}
    {freshId : String} {request : ExecutionRequest} {node : NodeState} {s : σ}
    {e : TransactionEffects} {node' : NodeState} {s' : σ}
    (h : handleTransaction ops serE serC freshId request node s =
      (.ok e, node', s')) :
    e.mutated = [] ∧
    e.created =
      (MoveVMExecutor.execute (some ops) freshId request s).1.touched_objects ∧
    e.events = (MoveVMExecutor.execute (some ops) freshId request s).1.logs := by
  have he := (handleTransaction_ok_state h).2.2
  rw [he, buildEffects_spec]
  exact ⟨rfl, rfl, rfl⟩

/-- Witness for C9 at the successful `coin::mint` run. -/
theorem effects_mutated_empty_witness :
    mintEffects.mutated = [] ∧
    mintEffects.created =
      (MoveVMExecutor.execute (some unitStoreOps) "fresh-1" reqMint ()).1.touched_objects ∧
    mintEffects.events =
      (MoveVMExecutor.execute (some unitStoreOps) "fresh-1" reqMint ()).1.logs :=
  effects_mutated_empty handle_mint_eval

/-- C2 (amended): when the pre-check demands the shared-object lock and
`handle_transaction` returns successfully, the exclusive lock taken in
step 2 has been released (its entry is erased) before returning; on
persistence-failure paths the error propagates without releasing it. -/
theorem lock_release_success_path {σ : Type} {ops : StoreOps σ}
    {serE : TransactionEffects → String} {serC : CheckpointSummary → String}
    {freshId : String} {request : ExecutionRequest} {report : PreCheckReport}
    {node : NodeState} {s : σ} {e : TransactionEffects} {node' : NodeState}
    {s' : σ}
    (hpc : PreCheckPipeline.run request = .ok report)
    (hreq : report.requires_shared_lock = true)
    (h : handleTransaction ops serE serC freshId request node s =
      (.ok e, node', s')) :
    node'.lockTable = eraseKey node.lockTable simulatedObject.lock_key := by
  simp only [handleTransaction, hpc, hreq, if_true] at h
  by_cases hacq :
      (LockManager.acquire node.lockTable simulatedObject LockMode.Exclusive).1 = true
  · simp only [hacq, if_true] at h
    have ha := afterLock_ok h
    have hlt := ha.2.2.2
    rw [hreq] at hlt
    simp only [if_true] at hlt
    rw [hlt]
    exact release_after_acquire_exclusive hacq
  · simp only [Bool.not_eq_true] at hacq
    simp [hacq] at h

/-- Witness for the amended C2 at the successful `coin::mint` run. -/
theorem lock_release_success_path_witness :
    nodeAfterMint.lockTable =
      eraseKey initialNode.lockTable simulatedObject.lock_key :=
  lock_release_success_path
    (rfl : PreCheckPipeline.run reqMint = .ok (PreCheckReport.mk true true))
    rfl handle_mint_eval

/-- Counterexample to C2 as stated: on `reqMint` (which acquires the
exclusive lock) with an effects store that fails, `handle_transaction`
returns the propagated store error while the lock-table entry for the
designated lock object is still exclusively held — the lock is not
released on this return path. -/
theorem lock_leak_on_persistence_failure_cex :
    (handleTransaction failingEffectsStoreOps (fun _ => "") (fun _ => "")
        "fresh-1" reqMint initialNode ()).1 = .error "effects store failure"
    ∧ (handleTransaction failingEffectsStoreOps (fun _ => "") (fun _ => "")
        "fresh-1" reqMint initialNode ()).2.1.lockTable =
      [("object-to-lock::v1", LockState.mk 0 true)] := by
  exact ⟨rfl, rfl⟩

/-- C6: a request rejected before execution — by the pre-check or by a
failed exclusive-lock acquisition — leaves everything untouched: the full
return value is the error together with the unchanged node state (lock
table, sequence counter, checkpoint aggregator) and the unchanged store
state. -/
theorem reject_no_side_effects {σ : Type} (ops : StoreOps σ)
    (serE : TransactionEffects → String) (serC : CheckpointSummary → String)
    (freshId : String) (request : ExecutionRequest) (node : NodeState) (s : σ) :
    (∀ e0, PreCheckPipeline.run request = .error e0 →
      handleTransaction ops serE serC freshId request node s =
        (.error ("pre-check failed: " ++ e0.message), node, s))
    ∧ (∀ report, PreCheckPipeline.run request = .ok report →
        report.requires_shared_lock = true →
        (LockManager.acquire node.lockTable simulatedObject LockMode.Exclusive).1 = false →
        handleTransaction ops serE serC freshId request node s =
          (.error "unable to acquire lock for shared object", node, s)) := by
  constructor
  · intro e0 hpc
    simp [handleTransaction, hpc]
  · intro report hpc hreq hacq
    simp only [LockManager.acquire] at hacq
    have hun := acquireKey_fail_unchanged hacq
    simp [handleTransaction, hpc, hreq, LockManager.acquire, hacq, hun]

/-- Witness for C6 at the zero-gas request. -/
theorem reject_no_side_effects_witness :
    handleTransaction unitStoreOps (fun _ => "") (fun _ => "") "f" reqZeroGas
        initialNode () =
      (.error ("pre-check failed: " ++ PreCheckError.InvalidGasBudget.message),
        initialNode, ()) :=
  (reject_no_side_effects unitStoreOps (fun _ => "") (fun _ => "") "f"
    reqZeroGas initialNode ()).1 PreCheckError.InvalidGasBudget rfl

theorem runAll_ok_state {σ : Type} (ops : StoreOps σ)
    (serE : TransactionEffects → String) (serC : CheckpointSummary → String) :
    ∀ (runs : List (String × ExecutionRequest)) (node : NodeState) (s : σ),
      (∀ r ∈ (runAll ops serE serC runs node s).1, r.isOk = true) →
      (runAll ops serE serC runs node s).2.1.checkpoints.summaries.map
          CheckpointSummary.sequence_number =
        node.checkpoints.summaries.map CheckpointSummary.sequence_number ++
          List.range' (node.sequence + 1) runs.length ∧
      (runAll ops serE serC runs node s).2.1.sequence =
        node.sequence + runs.length := by
  intro runs
  induction runs with
  | nil =>
      intro node s h
      simp [runAll]
  | cons p rest ih =>
      obtain ⟨fid, req⟩ := p
      intro node s h
      rcases hr : handleTransaction ops serE serC fid req node s with ⟨res, node1, s1⟩
      have hhead : res.isOk = true := by
        have hmem : res ∈ (runAll ops serE serC ((fid, req) :: rest) node s).1 := by
          simp [runAll, hr]
        exact h res hmem
      cases res with
      | error err => simp [Except.isOk, Except.toBool] at hhead
      | ok e =>
          have hst := handleTransaction_ok_state hr
          have htail : ∀ r ∈ (runAll ops serE serC rest node1 s1).1,
              r.isOk = true := by
            intro r hrmem
            apply h
            simp [runAll, hr]
            exact Or.inr hrmem
          have hih := ih node1 s1 htail
          have hrw : (runAll ops serE serC ((fid, req) :: rest) node s).2 =
              (runAll ops serE serC rest node1 s1).2 := by
            simp [runAll, hr]
          constructor
          · rw [hrw, hih.1, hst.2.1, hst.1]
            simp [List.range'_succ]
          · rw [hrw, hih.2, hst.1]
            simp [List.length_cons]
            ring

/-- C4: from the initial node state, a run of successful
`handle_transaction` calls assigns checkpoint sequence numbers that are
exactly `1, 2, ..., N` in order of assignment: strictly increasing,
starting at 1, with no duplicates and no gaps. -/
theorem checkpoint_sequence_range {σ : Type} (ops : StoreOps σ)
    (serE : TransactionEffects → String) (serC : CheckpointSummary → String)
    (runs : List (String × ExecutionRequest)) (s : σ)
    (h : ∀ r ∈ (runAll ops serE serC runs initialNode s).1, r.isOk = true) :
    (runAll ops serE serC runs initialNode s).2.1.checkpoints.summaries.map
        CheckpointSummary.sequence_number = List.range' 1 runs.length := by
  have := (runAll_ok_state ops serE serC runs initialNode s h).1
  simpa [initialNode] using this

/-- Witness for C4 at a run of two successful `coin::mint` calls. -/
theorem checkpoint_sequence_range_witness :
    (runAll unitStoreOps (fun _ => "") (fun _ => "")
        [("fresh-1", reqMint), ("fresh-2", reqMint2)] initialNode ()).2.1.checkpoints.summaries.map
      CheckpointSummary.sequence_number = List.range' 1 2 :=
  checkpoint_sequence_range unitStoreOps (fun _ => "") (fun _ => "")
    [("fresh-1", reqMint), ("fresh-2", reqMint2)] () (by decide)

/-- Witness for C3 at a small concrete call sequence. -/
theorem lock_table_invariant_reachable_witness :
    TableInv (runLockOps
      [LockOp.acq simulatedObject LockMode.Shared,
       LockOp.acq simulatedObject LockMode.Exclusive,
       LockOp.rel simulatedObject LockMode.Shared]) :=
  lock_table_invariant_reachable
    [LockOp.acq simulatedObject LockMode.Shared,
     LockOp.acq simulatedObject LockMode.Exclusive,
     LockOp.rel simulatedObject LockMode.Shared]

/-- Witness for C5 at the zero-gas request. -/
theorem precheck_run_spec_witness :
    PreCheckPipeline.run reqZeroGas = .error PreCheckError.InvalidGasBudget ↔
      reqZeroGas.tx.payload.gas_budget = 0 :=
  (precheck_run_spec reqZeroGas).1

/-- Witness for C8 at the concrete mint request on the trivial backend. -/
theorem coin_mint_execution_witness :
    (MoveVMExecutor.execute (some unitStoreOps) "fresh-1"
        { tx := { signer := "alice",
                  payload := { kind := TransactionKind.Call { val := "pkg" } "coin" "mint" [],
                               gas_budget := 5000 },
                  signature := "sig" },
          digest := { val := "digest-1" } } ()).1.touched_objects =
      [SuiObject.new { val := "fresh-1" } (Owner.Address "mint-address")
        (ObjectData.Coin 1000)]
    ∧ "Move call: coin::mint" ∈
        (MoveVMExecutor.execute (some unitStoreOps) "fresh-1"
          { tx := { signer := "alice",
                    payload := { kind := TransactionKind.Call { val := "pkg" } "coin" "mint" [],
                                 gas_budget := 5000 },
                    signature := "sig" },
            digest := { val := "digest-1" } } ()).1.logs :=
  coin_mint_execution (some unitStoreOps) "fresh-1" "alice" "sig"
    { val := "pkg" } [] 5000 { val := "digest-1" } ()

/-- Witness for C10: a save with a smaller sequence than the recorded
latest still overwrites `latest` with its own sequence. -/
theorem checkpoint_latest_tracks_last_save_witness :
    (InMemoryCheckpointStore.save_checkpoint
        { checkpoints := [(5, "c5")], latest := some 5 } 3 "c3").get_latest_sequence =
      some 3 :=
  checkpoint_latest_tracks_last_save
    { checkpoints := [(5, "c5")], latest := some 5 } 3 "c3"

end SuiArch
